import Mathlib

/-!
Shallow embedding of the wind-potential analysis pipeline of this
repository (`vietnamwind.py`, `demo.py`, `interactive_map.py`).

Geometric objects are modelled as finite sets of raster cells on the
integer grid: a `Geom` is the set of unit cells covered by a shapely
geometry, so shapely's `intersection` becomes finite-set intersection,
`unary_union` becomes a fold of unions, `area` becomes the cell count and
`is_empty` becomes emptiness of the cell set.  Library behaviour that the
source treats as opaque (the seeded numpy draw stream, scipy's Voronoi
region structure, shapely's `is_valid` verdict, the rasterstats zonal
mean/std of a polygon) is passed in as explicit function parameters, so
that every theorem quantifies over all possible behaviours of those
libraries.  Pandas tables are association lists of `(index label, row)`
pairs, which makes the label-alignment semantics of `pd.concat(axis=1)`
explicit.
-/

/-- A point of the plane, at raster-cell resolution. -/
abbrev Pt : Type := ℤ × ℤ

/-- A shapely geometry, as the finite set of raster cells it covers. -/
abbrev Geom : Type := Finset Pt

/-- `unary_union(boundary.geometry)` (vietnamwind.py line 499): union of all
geometries of the boundary GeoDataFrame. -/
def boundaryUnion (b : List Geom) : Geom := b.foldl (· ∪ ·) ∅

/-- One row of the clipped Voronoi GeoDataFrame: a geometry plus the `name`
column (the original point index, vietnamwind.py lines 510-513). -/
structure GeoRow where
  geom : Geom
  name : ℕ
deriving DecidableEq

/-- The clipping loop of `create_voronoi_polygons` (vietnamwind.py lines
502-516): intersect each Voronoi polygon with the boundary union and keep
only intersections that are non-empty and have positive area. -/
def clipPre (rows : List (ℕ × Geom)) (b : List Geom) : List (ℕ × Geom) :=
  let u := boundaryUnion b
  rows.filterMap (fun p =>
    let inter := p.2 ∩ u
    if ¬inter = ∅ ∧ 0 < inter.card then some (p.1, inter) else none)

/-- `gpd.GeoDataFrame(clipped_voronoi, ...)` (line 520): the list of kept
rows becomes a table with a fresh default RangeIndex `0, 1, 2, ...`. -/
def reindex (l : List (ℕ × Geom)) : List (ℕ × GeoRow) :=
  l.enum.map (fun ip => (ip.1, ⟨ip.2.2, ip.2.1⟩))

/-- The cleaning filter (lines 543-548): keep the rows whose geometry is
non-empty and valid; `validOf` models shapely's `is_valid` verdict. -/
def cleanValid (validOf : Geom → Bool) (t : List (ℕ × GeoRow)) : List (ℕ × GeoRow) :=
  t.filter (fun p => decide (¬p.2.geom = ∅) && validOf p.2.geom)

/-- The main clip-and-clean path of `create_voronoi_polygons` (lines
497-520 and 538-550): clip each polygon, rebuild the table with a fresh
index, drop invalid rows.  This is the path taken when the shapely calls
succeed and at least one clipped cell survives; the exception fallbacks of
lines 519-536 are modelled by `clipStageFull` below. -/
def clipStage (validOf : Geom → Bool) (rows : List (ℕ × Geom)) (b : List Geom) :
    List (ℕ × GeoRow) :=
  cleanValid validOf (reindex (clipPre rows b))

/-- The raw (pre-clip) Voronoi table as a row list: its `name` column was
set to the index at line 489, so each row carries its own label as name. -/
def rawTable (rows : List (ℕ × Geom)) : List (ℕ × GeoRow) :=
  rows.map (fun p => (p.1, ⟨p.2, p.1⟩))

/-- The complete clip stage of `create_voronoi_polygons` (lines 497-550)
including its exception fallbacks.  `unionOk` tells whether
`unary_union(boundary.geometry)` at line 499 succeeds; `interOf` is the
per-row `row.geometry.intersection(boundary_union)` call, whose exception
is caught at lines 514-516 by skipping the row; when the kept list is
empty, or the main path raised, `gpd.clip` (outcome `gpdClip`, which keeps
the table's original labels) is tried (lines 521-524 and 529-531); when
`gpd.clip` raises too, the code prints "Continuing without clipping
polygons." and keeps the unclipped table (lines 532-536).  The cleaning
filter of lines 543-548 runs last in every case. -/
def clipStageFull (unionOk : Bool) (interOf : Geom → Geom → Except String Geom)
    (gpdClip : List (ℕ × Geom) → Geom → Except String (List (ℕ × Geom)))
    (validOf : Geom → Bool) (rows : List (ℕ × Geom)) (b : List Geom) :
    List (ℕ × GeoRow) :=
  let u := boundaryUnion b
  let afterClip :=
    if unionOk then
      let clipped := rows.filterMap (fun p =>
        match interOf p.2 u with
        | .error _ => none
        | .ok inter => if ¬inter = ∅ ∧ 0 < inter.card then some (p.1, inter) else none)
      if ¬clipped = [] then reindex clipped
      else
        match gpdClip rows u with
        | .ok res => rawTable res
        | .error _ => rawTable rows
    else
      match gpdClip rows u with
      | .ok res => rawTable res
      | .error _ => rawTable rows
  cleanValid validOf afterClip

/-- The two zonal statistics of one polygon after the rename at line 590:
`wind_mean` and `wind_std`.  `none` models rasterstats returning `None`
when no raster pixel falls inside the polygon (a pandas NaN). -/
structure WindStats where
  wind_mean : Option ℚ
  wind_std : Option ℚ
deriving DecidableEq

/-- One `zonal_stats` call on a single geometry, with the raster's zonal
mean and zonal std passed in as opaque library functions. -/
def zonalOf (zm zs : Geom → Option ℚ) (g : Geom) : WindStats := ⟨zm g, zs g⟩

/-- The batching of `calculate_wind_statistics` (lines 578-586): the rows
are processed in positional slices `iloc[i : i+50]` with `batch_size = 50`. -/
def chunk50 : List α → List (List α)
  | [] => []
  | x :: xs => (x :: xs.take 49) :: chunk50 (xs.drop 49)
termination_by l => l.length
decreasing_by
  simp only [List.length_drop, List.length_cons]
  omega

/-- The `results` list of `calculate_wind_statistics`: zonal statistics of
every batch, concatenated in order (lines 579-586). -/
def batchedZonal (zm zs : Geom → Option ℚ) (rows : List (ℕ × GeoRow)) : List WindStats :=
  ((chunk50 rows).map (fun b => b.map (fun p => zonalOf zm zs p.2.geom))).flatten

/-- `pd.concat([t1, t2], axis=1)` (line 593): an outer join on the index
labels.  When the two indexes coincide the common index is kept; otherwise
pandas forms the sorted union of the labels, and every row absent from one
side is filled with NaN (`none`). -/
def concatAxis1 (t1 : List (ℕ × α)) (t2 : List (ℕ × β)) :
    List (ℕ × (Option α × Option β)) :=
  let ls1 := t1.map Prod.fst
  let ls2 := t2.map Prod.fst
  let labels := if ls1 = ls2 then ls1 else List.insertionSort (· ≤ ·) (ls1 ++ ls2).dedup
  labels.map (fun ℓ => (ℓ, (List.lookup ℓ t1, List.lookup ℓ t2)))

/-- A row of `voronoi_polygons` after `calculate_wind_statistics`: the
geometry columns and the statistics columns, each possibly NaN when the
outer join of `pd.concat` did not find the label on that side. -/
abbrev PostRow : Type := Option GeoRow × Option WindStats

/-- `calculate_wind_statistics` on the voronoi table (lines 578-593):
batched zonal statistics, renamed to `wind_mean`/`wind_std`, collected in a
DataFrame with a fresh RangeIndex, then concatenated column-wise. -/
def calcStats (zm zs : Geom → Option ℚ) (t : List (ℕ × GeoRow)) : List (ℕ × PostRow) :=
  concatAxis1 t (batchedZonal zm zs t).enum

/-- The property claimed of the statistics step: every row that carries a
geometry carries exactly the zonal statistics of that geometry. -/
def pairedCorrectly (zm zs : Geom → Option ℚ) (t : List (ℕ × PostRow)) : Prop :=
  ∀ p ∈ t, ∀ r : GeoRow, p.2.1 = some r →
    p.2.2 = some (zonalOf zm zs r.geom)

/-- One pass of the candidate filter (vietnamwind.py lines 383-389 and
407-414): walk the candidate list, stop appending once `num_points` points
are collected, and keep only candidates contained in the (buffered)
boundary. -/
def addCandidates (contains : Pt → Bool) (numPoints : ℕ)
    (acc : List Pt) (cands : List Pt) : List Pt :=
  cands.foldl (fun a c =>
    if numPoints ≤ a.length then a
    else if contains c then a ++ [c] else a) acc

/-- The retry loop of `create_voronoi_polygons` (lines 369-391): while fewer
than `num_points` interior points were found and fewer than `max_attempts`
attempts were made, draw `num_points * 5` fresh uniform candidates from the
seeded numpy stream and filter them.  The function returns the collected
points, the number of attempts performed, and the stream position after the
loop; `fuel` starts at `max_attempts = 10`. -/
def sampleLoop (contains : Pt → Bool) (draws : ℕ → Pt) (numPoints : ℕ) :
    ℕ → List Pt → ℕ → ℕ → List Pt × ℕ × ℕ
  | 0, acc, dIdx, att => (acc, att, dIdx)
  | fuel + 1, acc, dIdx, att =>
    if acc.length < numPoints then
      sampleLoop contains draws numPoints fuel
        (addCandidates contains numPoints acc
          ((List.range (numPoints * 5)).map (fun k => draws (dIdx + k))))
        (dIdx + numPoints * 5) (att + 1)
    else (acc, att, dIdx)

/-- `max_attempts = 10` (line 369). -/
def maxAttempts : ℕ := 10

/-- The whole point-sampling phase (lines 369-420): the retry loop, the
uniform-grid fallback when it produced fewer than `num_points` points, and
the final truncation `points_within_boundary[:num_points]`. -/
def samplePoints (contains : Pt → Bool) (draws : ℕ → Pt) (grid : List Pt)
    (numPoints : ℕ) : List Pt × ℕ × ℕ :=
  let r := sampleLoop contains draws numPoints maxAttempts [] 0 0
  let pts := if r.1.length < numPoints then addCandidates contains numPoints r.1 grid else r.1
  ((if numPoints < pts.length then pts.take numPoints else pts), r.2.1, r.2.2)

/-- `num_control_points = 16` (line 424). -/
def numControlPoints : ℕ := 16

/-- The outer control points of the Voronoi diagram (lines 422-444):
sixteen points on a large circle around the bounding box plus the four far
corners of the extended box.  Their float coordinates are opaque here, so
the circle points and corners are supplied as parameters. -/
def controlPts (circlePt : ℕ → Pt) (c1 c2 c3 c4 : Pt) : List Pt :=
  (List.range numControlPoints).map circlePt ++ [c1, c2, c3, c4]

/-- The fields of the `scipy.spatial.Voronoi` result that the source reads:
`point_region`, `regions` (vertex index lists, `-1` marking the vertex at
infinity) and `vertices`. -/
structure VorData where
  point_region : List ℕ
  regions : List (List ℤ)
  vertices : List Pt

/-- The polygon-building loop (lines 468-476): for each of the first
`num_points_within_boundary` entries of `point_region`, keep the region if
it is finite (`-1` not among its vertex indices) and non-empty, and build
its polygon from the region's vertices; the resulting dictionary is keyed
by the point index `i`. -/
def buildRegionPolys (polygonOf : List Pt → Geom) (vor : VorData) (n : ℕ) :
    List (ℕ × Geom) :=
  ((vor.point_region.take n).enum).filterMap (fun p =>
    let region := vor.regions.getD p.2 []
    if ¬(-1 : ℤ) ∈ region ∧ ¬region = [] then
      some (p.1, polygonOf (region.map (fun j => vor.vertices.getD j.toNat (0, 0))))
    else none)

/-- The library behaviours `create_voronoi_polygons` depends on, passed
explicitly: the negative buffer of one geometry, the numpy uniform stream
obtained from `np.random.seed(seed)`, the `linspace`/`meshgrid` fallback
grid, the circle control points and extended-box corners, scipy's Voronoi
structure, shapely polygon construction from a vertex list, shapely's
`is_valid`, and the rasterstats zonal mean and std. -/
structure GisEnv where
  bufferOf : Geom → Geom
  streamOf : ℕ → ℕ → Pt
  gridOf : ℕ → List Pt
  circlePt : ℕ → Pt
  corner1 : Pt
  corner2 : Pt
  corner3 : Pt
  corner4 : Pt
  vorOf : List Pt → VorData
  polygonOf : List Pt → Geom
  validOf : Geom → Bool
  zonalMean : Geom → Option ℚ
  zonalStd : Geom → Option ℚ

/-- The negative buffering of the boundary with its fallback (lines
314-334): buffer every geometry, and revert to the original boundary if any
buffered geometry came out empty. -/
def bufferedBoundary (env : GisEnv) (boundary : List Geom) : List Geom :=
  let b0 := boundary.map env.bufferOf
  if b0.any (fun g => decide (g = ∅)) then boundary else b0

/-- `any(geom.contains(point_obj) for geom in buffered_boundary.geometry)`
(lines 388 and 413). -/
def containsOf (buffered : List Geom) : Pt → Bool :=
  fun p => buffered.any (fun g => decide (p ∈ g))

/-- The body of `create_voronoi_polygons` after the boundary was fixed
(lines 314-550): buffer the boundary, sample the interior seed points from
the stream seeded with `random_state`, append the 20 control points, call
Voronoi, build the finite region polygons of the interior seeds only, and
clip and clean the resulting table. -/
def mkVoronoiTable (env : GisEnv) (boundary : List Geom)
    (numPoints randomState : ℕ) : List (ℕ × GeoRow) :=
  let buffered := bufferedBoundary env boundary
  let pts := (samplePoints (containsOf buffered) (env.streamOf randomState)
    (env.gridOf numPoints) numPoints).1
  let allPts := pts ++ controlPts env.circlePt env.corner1 env.corner2 env.corner3 env.corner4
  let vor := env.vorOf allPts
  clipStage env.validOf (buildRegionPolys env.polygonOf vor pts.length) boundary

/-- The seed points actually fed to `scipy.spatial.Voronoi` (line 447-450):
interior sample points followed by the 20 control points. -/
def voronoiSeeds (env : GisEnv) (boundary : List Geom)
    (numPoints randomState : ℕ) : List Pt :=
  let buffered := bufferedBoundary env boundary
  let pts := (samplePoints (containsOf buffered) (env.streamOf randomState)
    (env.gridOf numPoints) numPoints).1
  pts ++ controlPts env.circlePt env.corner1 env.corner2 env.corner3 env.corner4

/-- The state of numpy's global random generator: the stream it will
produce and the current position in it.  `np.random.seed(k)` replaces this
whole state. -/
structure NpRng where
  stream : ℕ → Pt
  pos : ℕ

/-- `np.random.seed(random_state)` (line 358): the global generator state is
overwritten with the state determined by the seed alone. -/
def npSeed (env : GisEnv) (k : ℕ) : NpRng := ⟨env.streamOf k, 0⟩

/-- `create_voronoi_polygons` as it interacts with numpy's global
generator: it receives whatever generator state previous code left behind,
re-seeds it from `random_state`, and samples from the freshly seeded
stream (lines 356-358). -/
def createVoronoiWithRng (env : GisEnv) (priorRng : NpRng) (boundary : List Geom)
    (numPoints randomState : ℕ) : List (ℕ × GeoRow) :=
  let rng := npSeed env randomState
  let buffered := bufferedBoundary env boundary
  let pts := (samplePoints (containsOf buffered)
    (fun k => rng.stream (rng.pos + k)) (env.gridOf numPoints) numPoints).1
  let allPts := pts ++ controlPts env.circlePt env.corner1 env.corner2 env.corner3 env.corner4
  clipStage env.validOf (buildRegionPolys env.polygonOf (env.vorOf allPts) pts.length) boundary

/-- Midpoint convexity of a cell set, the grid form of the glossary's
"convex polygon of points closer to one generating seed than to any other":
a convex region contains the midpoint of any two of its cells whenever that
midpoint is again a grid cell.  A set that violates this is not the cell
set of any convex polygon. -/
def ConvexCells (s : Geom) : Prop :=
  ∀ a ∈ s, ∀ b ∈ s, 2 ∣ a.1 + b.1 → 2 ∣ a.2 + b.2 →
    ((a.1 + b.1) / 2, (a.2 + b.2) / 2) ∈ s

instance : DecidablePred ConvexCells := fun s => by
  unfold ConvexCells; infer_instance

/-- Strict comparison of a possibly-NaN `wind_mean` value against the
threshold: in pandas every comparison with NaN is `False`, so a missing
value is never selected. -/
def optGt (x : Option ℚ) (θ : ℚ) : Bool :=
  match x with
  | some v => decide (θ < v)
  | none => false

/-- The per-row path of `filter_high_potential_areas` (lines 624-631), used
when more than 100 polygons exist: collect the labels whose row satisfies
`row.wind_mean > min_wind_speed`, then select those labels with `.loc`. -/
def loopPath (wm : ρ → Option ℚ) (t : List (ℕ × ρ)) (θ : ℚ) : List (ℕ × ρ) :=
  let idxs := (t.map Prod.fst).filter (fun ℓ =>
    match List.lookup ℓ t with
    | some r => optGt (wm r) θ
    | none => false)
  idxs.filterMap (fun ℓ => (List.lookup ℓ t).map (fun r => (ℓ, r)))

/-- The vectorized path of `filter_high_potential_areas` (line 634):
the boolean mask `t[t.wind_mean > min_wind_speed]`. -/
def vectorPath (wm : ρ → Option ℚ) (t : List (ℕ × ρ)) (θ : ℚ) : List (ℕ × ρ) :=
  t.filter (fun p => optGt (wm p.2) θ)

/-- The body of `filter_high_potential_areas` (lines 623-634): the per-row
path for more than 100 polygons, the vectorized path otherwise. -/
def filterHigh (wm : ρ → Option ℚ) (t : List (ℕ × ρ)) (θ : ℚ) : List (ℕ × ρ) :=
  if 100 < t.length then loopPath wm t θ else vectorPath wm t θ

/-- The `wind_mean` column value of a post-statistics row: NaN both when the
row has no statistics half and when the zonal mean itself was `None`. -/
def postWm (p : PostRow) : Option ℚ := p.2.bind (fun s => s.wind_mean)

/-- The `voronoi_polygons` attribute: either the table as built by
`create_voronoi_polygons` (no `wind_mean` column yet) or the table after
`calculate_wind_statistics` (statistics columns present). -/
inductive VorTable
  | pre (rows : List (ℕ × GeoRow))
  | post (rows : List (ℕ × PostRow))

/-- `'wind_mean' in self.voronoi_polygons.columns`. -/
def VorTable.hasWindMean : VorTable → Bool
  | .pre _ => false
  | .post _ => true

/-- The attributes of `WindPotentialAnalyzer` set in `__init__` (lines
40-44); every field starts as `None`. -/
structure Analyzer where
  catchments : Option (List Geom)
  demdata : Option String
  voronoi_polygons : Option VorTable
  selected_region : Option (List Geom)
  province_data : Option (List (String × Geom))

/-- A freshly constructed `WindPotentialAnalyzer()`: every attribute is
`None`. -/
def freshAnalyzer : Analyzer :=
  ⟨none, none, none, none, none⟩

/-- Error message of the `load_data` precondition checks (lines 169, 300). -/
def msgLoad : String := "Chưa tải dữ liệu. Hãy gọi phương thức load_data() trước."

/-- Error message of the `load_provinces` precondition checks (lines 114, 151). -/
def msgProv : String := "Chưa tải dữ liệu tỉnh/thành phố. Hãy gọi phương thức load_provinces() trước."

/-- Error message of the `create_voronoi_polygons` precondition check (line 568). -/
def msgVor : String := "Chưa tạo đa giác Voronoi. Hãy gọi phương thức create_voronoi_polygons() trước."

/-- Error message of the `calculate_wind_statistics` precondition checks
(lines 617, 660, 717, 885, 1031). -/
def msgStats : String := "Chưa tính toán thống kê gió. Hãy gọi phương thức calculate_wind_statistics() trước."

/-- `load_data` (lines 46-68): read the boundary file and open the wind
raster; the loaded contents are supplied by the caller. -/
def loadDataM (st : Analyzer) (boundary : List Geom) (windName : String) : Analyzer :=
  { st with catchments := some boundary, demdata := some windName }

/-- Substring test used by the fallback province match
(`str.contains(region_name.lower())`, line 121). -/
def strContainsSub (hay needle : String) : Bool :=
  decide (needle.toList <:+: hay.toList)

/-- `select_region` (lines 96-137): with `None` the whole boundary is
selected; otherwise the province table must be loaded, the name is matched
case-insensitively (exact, then substring), and the first match is kept. -/
def selectRegionM (st : Analyzer) (regionName : Option String) : Except String Analyzer :=
  match regionName with
  | none => .ok { st with selected_region := st.catchments }
  | some nm =>
    match st.province_data with
    | none => .error msgProv
    | some pd =>
      let exact := pd.filter (fun p => p.1.toLower == nm.toLower)
      let found := if exact.isEmpty then
          pd.filter (fun p => strContainsSub p.1.toLower nm.toLower)
        else exact
      match found with
      | [] => .error ("Không tìm thấy tỉnh/thành phố '" ++ nm ++ "'.")
      | r :: _ => .ok { st with selected_region := some [r.2] }

/-- `list_available_regions` (lines 139-154): requires the province table,
returns the sorted name list. -/
def listAvailableRegionsM (st : Analyzer) : Except String (List String) :=
  match st.province_data with
  | none => .error msgProv
  | some pd => .ok (List.insertionSort (fun a b => a ≤ b) (pd.map Prod.fst))

/-- What `visualize_wind_data` ends up drawing for the raster layer. -/
inductive RasterDisplay
  | masked (d : String)
  | fullRaster

/-- `visualize_wind_data` (lines 156-281): requires loaded data; when a
proper sub-region is selected it tries `rasterio.mask.mask` (outcome
`maskCall`) and on failure falls back to showing the unmasked raster. -/
def visualizeWindDataM (maskCall : Except String String) (st : Analyzer) :
    Except String RasterDisplay :=
  if st.demdata = none ∨ st.catchments = none then .error msgLoad
  else if ¬st.selected_region = none ∧ ¬st.selected_region = st.catchments then
    match maskCall with
    | .ok d => .ok (.masked d)
    | .error _ => .ok .fullRaster
  else .ok .fullRaster

/-- `create_voronoi_polygons` as an analyzer method (lines 283-554):
precondition check, then the boundary is the selected region if any, else
the whole catchments table, and the pipeline builds the table. -/
def createVoronoiPolygonsM (env : GisEnv) (st : Analyzer)
    (numPoints randomState : ℕ) : Except String Analyzer :=
  match st.catchments with
  | none => .error msgLoad
  | some c =>
    let boundary := st.selected_region.getD c
    let tbl := VorTable.pre (mkVoronoiTable env boundary numPoints randomState)
    .ok { st with voronoi_polygons := some tbl }

/-- `calculate_wind_statistics` as an analyzer method (lines 556-597):
precondition check, optional late raster open, then the batched zonal
statistics are concatenated onto the table. -/
def calculateWindStatisticsM (env : GisEnv) (st : Analyzer)
    (windFile : Option String) : Except String Analyzer :=
  match st.voronoi_polygons with
  | none => .error msgVor
  | some t =>
    let st := match windFile, st.demdata with
      | some w, none => { st with demdata := some w }
      | _, _ => st
    let rows := match t with
      | .pre rows => rows
      | .post rows => rows.filterMap (fun p => p.2.1.map (fun r => (p.1, r)))
    let tbl := VorTable.post (calcStats env.zonalMean env.zonalStd rows)
    .ok { st with voronoi_polygons := some tbl }

/-- `filter_high_potential_areas` as an analyzer method (lines 599-642):
precondition check, then whichever of the two filter paths applies; the
result is returned, the analyzer state is read only. -/
def filterHighPotentialAreasM (st : Analyzer) (θ : ℚ) :
    Except String (List (ℕ × PostRow)) :=
  match st.voronoi_polygons with
  | none => .error msgStats
  | some t =>
    if t.hasWindMean then
      match t with
      | .pre _ => .error msgStats
      | .post rows => .ok (filterHigh postWm rows θ)
    else .error msgStats

/-- `save_results` (lines 644-699): precondition check on the voronoi
table, then the KML/CSV exports; the exported statistics rows stand in for
the written files. -/
def saveResultsM (st : Analyzer) (θ : ℚ) :
    Except String (List (ℕ × PostRow)) :=
  match st.voronoi_polygons with
  | none => .error msgStats
  | some t =>
    match t with
    | .pre _ => .error msgStats
    | .post rows => (filterHighPotentialAreasM st θ).map (fun _ => rows)

/-- `visualize_high_potential_areas` (lines 701-867): precondition check,
filter, and `None` when no area qualifies. -/
def visualizeHighPotentialAreasM (st : Analyzer) (θ : ℚ) :
    Except String (Option (List (ℕ × PostRow))) :=
  match st.voronoi_polygons with
  | none => .error msgStats
  | some t =>
    if t.hasWindMean then
      match t with
      | .pre _ => .error msgStats
      | .post rows =>
        let hp := filterHigh postWm rows θ
        if hp.isEmpty then .ok none else .ok (some hp)
    else .error msgStats

/-- `export_detailed_statistics` (lines 869-998): precondition check, then
the detailed CSV rows. -/
def exportDetailedStatisticsM (st : Analyzer) (θ : ℚ) :
    Except String (List (ℕ × PostRow)) :=
  match st.voronoi_polygons with
  | none => .error msgStats
  | some t =>
    if t.hasWindMean then
      match t with
      | .pre _ => .error msgStats
      | .post rows => .ok rows
    else .error msgStats

/-- `create_interactive_visualization` (lines 1000-1182): if importing
`mpld3` fails, return `None` at once; then the precondition check; `None`
when no high-potential area remains before or after dropping rows with a
missing geometry; then the table is cleaned in place, the figure is drawn,
and `mpld3.fig_to_html` (outcome `figToHtml`) either yields the HTML or its
exception is caught and `None` is returned. -/
def createInteractiveVisualizationM (mpld3Avail : Bool)
    (figToHtml : Except String String) (st : Analyzer) (θ : ℚ) :
    Except String (Option String × Analyzer) :=
  if ¬mpld3Avail then .ok (none, st)
  else
    match st.voronoi_polygons with
    | none => .error msgStats
    | some t =>
      if t.hasWindMean then
        match t with
        | .pre _ => .error msgStats
        | .post rows =>
          let hp := filterHigh postWm rows θ
          if hp.isEmpty then .ok (none, st)
          else
            let hp2 := hp.filter (fun p => ¬p.2.1.isNone)
            if hp2.isEmpty then .ok (none, st)
            else
              let cleaned := rows.filter (fun p => ¬p.2.1.isNone)
              let st2 := { st with voronoi_polygons := some (.post cleaned) }
              match figToHtml with
              | .error _ => .ok (none, st2)
              | .ok h => .ok (some h, st2)
      else .error msgStats

/-- A heap of DataFrame objects, for reasoning about Python object
identity: each table lives at an address, and `.copy()` allocates a fresh
address. -/
abbrev Store : Type := List (List (ℕ × PostRow))

/-- The analyzer attributes as references into the store, so that aliasing
between the returned table and `voronoi_polygons` is observable. -/
structure RefAnalyzer where
  catchments : Option ℕ
  demdata : Option String
  voronoi_polygons : Option ℕ
  selected_region : Option ℕ
  province_data : Option ℕ
deriving DecidableEq

/-- `filter_high_potential_areas` against the object heap (lines 599-642):
the method reads the table behind `voronoi_polygons`, filters it, and
`.copy()` materialises the result at a fresh address; no attribute is
written.  Returns the new store, the analyzer, and the address of the
returned GeoDataFrame. -/
def filterHighPotentialRef (store : Store) (st : RefAnalyzer) (θ : ℚ) :
    Except String (Store × RefAnalyzer × ℕ) :=
  match st.voronoi_polygons with
  | none => .error msgStats
  | some ref =>
    match store.get? ref with
    | none => .error msgStats
    | some rows => .ok (store ++ [filterHigh postWm rows θ], st, store.length)

/-- Mutating the table at address `r` of the store, as a caller of
`filter_high_potential_areas` would mutate the returned GeoDataFrame. -/
def storeSet (store : Store) (r : ℕ) (t : List (ℕ × PostRow)) : Store :=
  store.set r t

/-- A one-cell boundary used by the concrete witness runs. -/
def bW : Geom := {(0, 0)}

/-- A tiny concrete library environment for witness runs: the buffer is the
identity, the stream always draws the origin, every Voronoi region is the
finite region `[0]`, and every polygon is the single origin cell. -/
def envW : GisEnv where
  bufferOf := id
  streamOf := fun _ _ => (0, 0)
  gridOf := fun _ => []
  circlePt := fun _ => (5, 5)
  corner1 := (6, 6)
  corner2 := (6, 7)
  corner3 := (7, 6)
  corner4 := (7, 7)
  vorOf := fun pts => ⟨List.range pts.length, pts.map (fun _ => [0]), [(0, 0)]⟩
  polygonOf := fun _ => {(0, 0)}
  validOf := fun _ => true
  zonalMean := fun g => some (g.card : ℚ)
  zonalStd := fun _ => some 0

/-- First raw Voronoi polygon of the concrete misalignment run. -/
def gA : Geom := {(0, 0)}

/-- Second raw Voronoi polygon of the concrete misalignment run. -/
def gB : Geom := {(1, 0)}

/-- Boundary of the concrete misalignment run. -/
def bC : Geom := {(0, 0), (1, 0)}

/-- A shapely `is_valid` verdict that rejects exactly the clipped geometry
`gA`, as shapely may do for a degenerate intersection result. -/
def validC : Geom → Bool := fun g => decide (¬g = gA)

/-- Concrete zonal mean for witness runs: the cell count of the polygon. -/
def zmC : Geom → Option ℚ := fun g => some (g.card : ℚ)

/-- Concrete zonal std for witness runs. -/
def zsC : Geom → Option ℚ := fun _ => some 0

/-- An L-shaped (non-convex) boundary region. -/
def bL : Geom := {(0, 0), (1, 0), (2, 0), (2, 1), (2, 2)}

/-- The full 3 by 3 square of cells, a convex raw Voronoi region covering
`bL`. -/
def pSquare : Geom :=
  {(0, 0), (1, 0), (2, 0), (0, 1), (1, 1), (2, 1), (0, 2), (1, 2), (2, 2)}

/-- A tiny wind-mean table for the filter-path witnesses. -/
def tQ : List (ℕ × Option ℚ) := [(0, some 5), (1, some 7), (2, none)]

/-- A one-row post-statistics table for the heap-model witnesses. -/
def tRW : List (ℕ × PostRow) := [(0, (some ⟨gA, 0⟩, some ⟨some 7, some 1⟩))]

/-- A heap analyzer whose `voronoi_polygons` points at address 0. -/
def stRW : RefAnalyzer := ⟨none, none, some 0, none, none⟩

/-- A value analyzer holding post-statistics rows, for the visualization
witnesses. -/
def stPost : Analyzer :=
  ⟨some [bW], some "wind", some (VorTable.post tRW), none, none⟩

theorem clipPre_mem {rows : List (ℕ × Geom)} {b : List Geom} {p : ℕ × Geom}
    (hp : p ∈ clipPre rows b) :
    ¬p.2 = ∅ ∧ 0 < p.2.card ∧ p.2 ⊆ boundaryUnion b ∧
      ∃ q ∈ rows, q.1 = p.1 ∧ p.2 = q.2 ∩ boundaryUnion b := by
  unfold clipPre at hp
  simp only [List.mem_filterMap] at hp
  obtain ⟨a, ha, hfa⟩ := hp
  by_cases h : ¬(a.2 ∩ boundaryUnion b) = ∅ ∧ 0 < (a.2 ∩ boundaryUnion b).card
  · rw [if_pos h] at hfa
    cases hfa
    exact ⟨h.1, h.2, Finset.inter_subset_right, a, ha, rfl, rfl⟩
  · rw [if_neg h] at hfa
    cases hfa

theorem reindex_mem {l : List (ℕ × Geom)} {p : ℕ × GeoRow} (hp : p ∈ reindex l) :
    ∃ q ∈ l, p.2.geom = q.2 ∧ p.2.name = q.1 := by
  unfold reindex at hp
  simp only [List.mem_map] at hp
  obtain ⟨ip, hip, hq⟩ := hp
  have hmem : ip.2 ∈ l := by
    have := List.mem_enum_iff_get? (x := ip) (l := l)
    exact List.get?_mem (this.mp hip)
  subst hq
  exact ⟨ip.2, hmem, rfl, rfl⟩

theorem cleanValid_mem {validOf : Geom → Bool} {t : List (ℕ × GeoRow)}
    {p : ℕ × GeoRow} (hp : p ∈ cleanValid validOf t) :
    p ∈ t ∧ ¬p.2.geom = ∅ ∧ validOf p.2.geom = true := by
  unfold cleanValid at hp
  rw [List.mem_filter] at hp
  refine ⟨hp.1, ?_, ?_⟩
  · have := hp.2
    simp only [Bool.and_eq_true, decide_eq_true_eq] at this
    exact this.1
  · have := hp.2
    simp only [Bool.and_eq_true, decide_eq_true_eq] at this
    exact this.2

theorem clipStage_mem {validOf : Geom → Bool} {rows : List (ℕ × Geom)}
    {b : List Geom} {p : ℕ × GeoRow} (hp : p ∈ clipStage validOf rows b) :
    ¬p.2.geom = ∅ ∧ 0 < p.2.geom.card ∧ validOf p.2.geom = true ∧
      p.2.geom ⊆ boundaryUnion b ∧
      ∃ q ∈ rows, q.1 = p.2.name ∧ p.2.geom = q.2 ∩ boundaryUnion b := by
  obtain ⟨hmem, hne, hval⟩ := cleanValid_mem hp
  obtain ⟨q, hq, hgeom, hname⟩ := reindex_mem hmem
  obtain ⟨hne', hcard, hsub, a, hq', hfst, hsnd⟩ := clipPre_mem hq
  rw [hgeom]
  exact ⟨hne', hcard, hgeom ▸ hval, hsub, a, hq', hname ▸ hfst, hsnd⟩

/-- Counterexample for C2: when `unary_union` raises and `gpd.clip` raises
too, the code prints "Continuing without clipping polygons." and stores the
raw unclipped Voronoi polygons; the convex region `pSquare` survives the
cleaning filter although it is not contained in the boundary union of `bL`,
so the unconditional containment (and clipping) invariant fails. -/
theorem unclipped_cell_escapes_boundary :
    ((0 : ℕ), (⟨pSquare, 0⟩ : GeoRow)) ∈
      clipStageFull false (fun g u => .ok (g ∩ u))
        (fun _ _ => .error "clip failed") (fun _ => true) [(0, pSquare)] [bL] ∧
    ¬pSquare ⊆ boundaryUnion [bL] := by
  constructor
  · decide
  · decide

/-- C2 (amended): when the clipping library calls succeed and the per-row
clip keeps at least one cell (the main path of lines 497-520), the full
clip stage coincides with the main path, and every stored geometry is
non-empty, valid, has positive area, and is contained in the union of the
boundary's geometries; in the exception fallbacks of lines 519-536 the
polygons can be stored unclipped and those guarantees are lost. -/
theorem voronoi_cells_clipped_when_clip_succeeds
    (gpdClip : List (ℕ × Geom) → Geom → Except String (List (ℕ × Geom)))
    (validOf : Geom → Bool) (rows : List (ℕ × Geom)) (b : List Geom)
    (hne : ¬clipPre rows b = []) :
    clipStageFull true (fun g u => .ok (g ∩ u)) gpdClip validOf rows b =
      clipStage validOf rows b ∧
    ∀ p ∈ clipStageFull true (fun g u => .ok (g ∩ u)) gpdClip validOf rows b,
      ¬p.2.geom = ∅ ∧ 0 < p.2.geom.card ∧ validOf p.2.geom = true ∧
        p.2.geom ⊆ boundaryUnion b := by
  have hmain : clipStageFull true (fun g u => .ok (g ∩ u)) gpdClip validOf rows b =
      clipStage validOf rows b := by
    show cleanValid validOf
      (if ¬clipPre rows b = [] then reindex (clipPre rows b)
       else match gpdClip rows (boundaryUnion b) with
         | .ok res => rawTable res
         | .error _ => rawTable rows) = clipStage validOf rows b
    rw [if_pos hne]
    rfl
  refine ⟨hmain, ?_⟩
  rw [hmain]
  intro p hp
  obtain ⟨h1, h2, h3, h4, -⟩ := clipStage_mem hp
  exact ⟨h1, h2, h3, h4⟩

/-- Witness for C2's amended theorem: a concrete run whose main clip path
succeeds stores the clipped cell `bW` with all four properties. -/
theorem voronoi_cells_clipped_when_clip_succeeds_witness :
    ¬bW = ∅ ∧ 0 < bW.card ∧ (fun _ => true) bW = true ∧
      bW ⊆ boundaryUnion [bW] :=
  (voronoi_cells_clipped_when_clip_succeeds (fun _ _ => Except.error "clip failed")
      (fun _ => true) [(0, bW)] [bW] (by decide)).2
    ((0 : ℕ), (⟨bW, 0⟩ : GeoRow)) (by decide)

theorem convexCells_inter {s t : Geom} (hs : ConvexCells s) (ht : ConvexCells t) :
    ConvexCells (s ∩ t) := by
  intro a ha b hb h1 h2
  rw [Finset.mem_inter] at ha hb ⊢
  exact ⟨hs a ha.1 b hb.1 h1 h2, ht a ha.2 b hb.2 h1 h2⟩

/-- Counterexample for C7: clipping the convex 3 by 3 region `pSquare`
against the L-shaped boundary `bL` stores the geometry `bL` itself in the
voronoi table, and `bL` is not convex (it misses the midpoint of its cells
`(0,0)` and `(2,2)`).  So not every stored Voronoi cell is a convex
polygon. -/
theorem stored_voronoi_cell_not_convex :
    ((0 : ℕ), (⟨bL, 0⟩ : GeoRow)) ∈ clipStage (fun _ => true) [(0, pSquare)] [bL] ∧
      ConvexCells pSquare ∧ ¬ConvexCells bL := by
  refine ⟨by decide, by decide, ?_⟩
  intro h
  have := h (0, 0) (by decide) (2, 2) (by decide) (by decide) (by decide)
  revert this
  decide

/-- C7 (amended): every geometry stored by `create_voronoi_polygons` is the
intersection of a raw Voronoi region polygon with the boundary union; it is
therefore convex whenever that raw region and the boundary union are, but
with a non-convex boundary it need not be convex. -/
theorem stored_voronoi_cell_is_clipped_region (validOf : Geom → Bool)
    (rows : List (ℕ × Geom)) (b : List Geom) (p : ℕ × GeoRow)
    (hp : p ∈ clipStage validOf rows b) :
    ∃ q ∈ rows, q.1 = p.2.name ∧ p.2.geom = q.2 ∩ boundaryUnion b ∧
      (ConvexCells q.2 → ConvexCells (boundaryUnion b) → ConvexCells p.2.geom) := by
  obtain ⟨-, -, -, -, q, hq, hfst, hsnd⟩ := clipStage_mem hp
  exact ⟨q, hq, hfst, hsnd, fun h1 h2 => hsnd ▸ convexCells_inter h1 h2⟩

/-- Witness for C7's amended theorem at the concrete L-shaped run. -/
theorem stored_voronoi_cell_is_clipped_region_witness :
    ∃ q ∈ [((0 : ℕ), pSquare)], q.1 = (0 : ℕ) ∧ bL = q.2 ∩ boundaryUnion [bL] ∧
      (ConvexCells q.2 → ConvexCells (boundaryUnion [bL]) → ConvexCells bL) :=
  stored_voronoi_cell_is_clipped_region (fun _ => true) [(0, pSquare)] [bL]
    ((0 : ℕ), (⟨bL, 0⟩ : GeoRow)) (by decide)

theorem chunk50_flatten (l : List α) : (chunk50 l).flatten = l := by
  induction l using chunk50.induct with
  | case1 => rw [chunk50]; rfl
  | case2 x xs ih =>
    rw [chunk50]
    simp only [List.flatten_cons, List.cons_append, ih]
    exact congrArg (x :: ·) (List.take_append_drop 49 xs)

theorem batchedZonal_eq_map (zm zs : Geom → Option ℚ) (t : List (ℕ × GeoRow)) :
    batchedZonal zm zs t = t.map (fun p => zonalOf zm zs p.2.geom) := by
  unfold batchedZonal
  rw [← List.map_flatten, chunk50_flatten]

theorem lookup_range' {α : Type u} :
    ∀ (t : List (ℕ × α)) (k : ℕ), t.map Prod.fst = List.range' k t.length →
      ∀ i, List.lookup (k + i) t = (t[i]?).map Prod.snd := by
  intro t
  induction t with
  | nil =>
    intro k _ i
    simp [List.lookup]
  | cons a t ih =>
    intro k hmap i
    obtain ⟨ℓ, v⟩ := a
    simp only [List.map_cons, List.length_cons, List.range'_succ] at hmap
    injection hmap with h1 h2
    subst h1
    cases i with
    | zero =>
      simp [List.lookup]
    | succ j =>
      have hne : (ℓ + (j + 1) == ℓ) = false := by
        simp only [beq_eq_false_iff_ne, ne_eq]
        omega
      rw [List.lookup_cons, hne]
      have hstep : ℓ + (j + 1) = (ℓ + 1) + j := by omega
      rw [hstep, ih (ℓ + 1) h2 j]
      simp

theorem lookup_of_range {α : Type u} (t : List (ℕ × α))
    (h : t.map Prod.fst = List.range t.length) (i : ℕ) :
    List.lookup i t = (t[i]?).map Prod.snd := by
  have := lookup_range' t 0 (by rw [h, List.range_eq_range']) i
  simpa using this

theorem calc_pairs_of_range {zm zs : Geom → Option ℚ} (t : List (ℕ × GeoRow))
    (h : t.map Prod.fst = List.range t.length) :
    pairedCorrectly zm zs (calcStats zm zs t) := by
  intro p hp r hr
  unfold calcStats concatAxis1 at hp
  have hbz : batchedZonal zm zs t = t.map (fun p => zonalOf zm zs p.2.geom) :=
    batchedZonal_eq_map zm zs t
  have hlen : (batchedZonal zm zs t).length = t.length := by
    rw [hbz, List.length_map]
  have hls2 : ((batchedZonal zm zs t).enum).map Prod.fst = List.range t.length := by
    rw [List.enum_map_fst, hlen]
  have heq : t.map Prod.fst = ((batchedZonal zm zs t).enum).map Prod.fst := by
    rw [h, hls2]
  simp only [if_pos heq, List.mem_map] at hp
  obtain ⟨ℓ, hℓ, hpe⟩ := hp
  subst hpe
  simp only at hr ⊢
  rw [lookup_of_range t h ℓ] at hr
  obtain ⟨q, hget, hq2⟩ : ∃ q, t[ℓ]? = some q ∧ q.2 = r := by
    cases hget : t[ℓ]? with
    | none => rw [hget] at hr; cases hr
    | some q =>
      rw [hget] at hr
      refine ⟨q, rfl, ?_⟩
      simpa using hr
  subst hq2
  have h2 : List.lookup ℓ ((batchedZonal zm zs t).enum) = (batchedZonal zm zs t)[ℓ]? := by
    rw [lookup_of_range ((batchedZonal zm zs t).enum)
      (by rw [List.enum_map_fst, List.enum_length]) ℓ]
    rw [List.getElem?_enum]
    cases (batchedZonal zm zs t)[ℓ]? <;> rfl
  rw [h2, hbz, List.getElem?_map, hget]
  rfl

/-- Counterexample for C1: when shapely reports one clipped geometry
invalid (`validC` rejects `gA`), the cleaning filter leaves the table with
index `[1]` while the batched statistics DataFrame carries the fresh index
`[0]`, and `pd.concat(axis=1)` aligns by label: the surviving cell `gB`
ends up with NaN statistics instead of its own zonal mean and std, so the
row-by-row pairing claimed by C1 fails on this concrete run. -/
theorem calc_stats_misaligned_counterexample :
    ¬pairedCorrectly zmC zsC
      (calcStats zmC zsC (clipStage validC [(0, gA), (1, gB)] [bC])) := by
  intro h
  have h1 : calcStats zmC zsC (clipStage validC [(0, gA), (1, gB)] [bC]) =
      concatAxis1 (clipStage validC [(0, gA), (1, gB)] [bC])
        ((clipStage validC [(0, gA), (1, gB)] [bC]).map
          (fun p => zonalOf zmC zsC p.2.geom)).enum := by
    rw [calcStats, batchedZonal_eq_map]
  have hmem : ((1 : ℕ), ((some (⟨gB, 1⟩ : GeoRow), (none : Option WindStats)) : PostRow)) ∈
      concatAxis1 (clipStage validC [(0, gA), (1, gB)] [bC])
        ((clipStage validC [(0, gA), (1, gB)] [bC]).map
          (fun p => zonalOf zmC zsC p.2.geom)).enum := by decide
  exact Option.noConfusion (h _ (h1.symm ▸ hmem) ⟨gB, 1⟩ rfl)

/-- C1 (amended): provided the cleaning filter of `create_voronoi_polygons`
drops no row (every clipped geometry is reported valid), the table keeps
its fresh contiguous RangeIndex, the two indexes of `pd.concat(axis=1)`
coincide, and every Voronoi cell row carries `wind_mean`/`wind_std` equal
to the zonal statistics of its own polygon. -/
theorem calc_stats_paired_when_clean_keeps_all (validOf : Geom → Bool)
    (rows : List (ℕ × Geom)) (b : List Geom) (zm zs : Geom → Option ℚ)
    (hv : ∀ p ∈ reindex (clipPre rows b), validOf p.2.geom = true) :
    pairedCorrectly zm zs (calcStats zm zs (clipStage validOf rows b)) := by
  have hall : clipStage validOf rows b = reindex (clipPre rows b) := by
    unfold clipStage cleanValid
    rw [List.filter_eq_self]
    intro a ha
    obtain ⟨q, hq, hgeom, -⟩ := reindex_mem ha
    obtain ⟨hne, -, -, -⟩ := clipPre_mem hq
    simp only [Bool.and_eq_true, decide_eq_true_eq]
    exact ⟨hgeom ▸ hne, hv a ha⟩
  rw [hall]
  apply calc_pairs_of_range
  unfold reindex
  rw [List.map_map]
  have hcomp : (Prod.fst ∘ fun ip : ℕ × (ℕ × Geom) =>
      (ip.1, (⟨ip.2.2, ip.2.1⟩ : GeoRow))) = Prod.fst := rfl
  rw [hcomp, List.enum_map_fst]
  simp

/-- Witness for C1's amended theorem: a concrete run in which every clipped
geometry is valid pairs the statistics correctly. -/
theorem calc_stats_paired_when_clean_keeps_all_witness :
    pairedCorrectly zmC zsC
      (calcStats zmC zsC (clipStage (fun _ => true) [(0, gA)] [bC])) :=
  calc_stats_paired_when_clean_keeps_all (fun _ => true) [(0, gA)] [bC] zmC zsC
    (fun _ _ => rfl)

theorem addCandidates_mem (c : Pt → Bool) (n : ℕ) :
    ∀ (cs acc : List Pt) (p : Pt), p ∈ addCandidates c n acc cs → p ∈ acc ∨ c p = true := by
  intro cs
  induction cs with
  | nil => exact fun acc p hp => Or.inl hp
  | cons x cs ih =>
    intro acc p hp
    have hstep := ih (if n ≤ acc.length then acc else if c x then acc ++ [x] else acc) p hp
    rcases hstep with hmem | hc
    · by_cases h1 : n ≤ acc.length
      · rw [if_pos h1] at hmem
        exact Or.inl hmem
      · rw [if_neg h1] at hmem
        by_cases h2 : c x = true
        · rw [if_pos h2] at hmem
          rcases List.mem_append.mp hmem with h | h
          · exact Or.inl h
          · rw [List.mem_singleton.mp h]
            exact Or.inr h2
        · rw [if_neg h2] at hmem
          exact Or.inl hmem
    · exact Or.inr hc

theorem addCandidates_length (c : Pt → Bool) (n : ℕ) :
    ∀ (cs acc : List Pt), (addCandidates c n acc cs).length ≤ max acc.length n := by
  intro cs
  induction cs with
  | nil => exact fun acc => le_max_left _ _
  | cons x cs ih =>
    intro acc
    refine le_trans (ih (if n ≤ acc.length then acc else if c x then acc ++ [x] else acc)) ?_
    have hstep : (if n ≤ acc.length then acc else if c x then acc ++ [x] else acc).length ≤
        max acc.length n := by
      by_cases h1 : n ≤ acc.length
      · rw [if_pos h1]
        exact le_max_left _ _
      · rw [if_neg h1]
        by_cases h2 : c x = true
        · rw [if_pos h2]
          simp only [List.length_append, List.length_singleton]
          omega
        · rw [if_neg h2]
          exact le_max_left _ _
    exact max_le hstep (le_max_right _ _)


theorem sampleLoop_spec (c : Pt → Bool) (d : ℕ → Pt) (n : ℕ) :
    ∀ (fuel : ℕ) (acc : List Pt) (dIdx att : ℕ),
      (sampleLoop c d n fuel acc dIdx att).2.1 ≤ att + fuel ∧
      att ≤ (sampleLoop c d n fuel acc dIdx att).2.1 ∧
      (sampleLoop c d n fuel acc dIdx att).2.2 + att * (n * 5) =
        dIdx + (sampleLoop c d n fuel acc dIdx att).2.1 * (n * 5) ∧
      (∀ p ∈ (sampleLoop c d n fuel acc dIdx att).1, p ∈ acc ∨ c p = true) ∧
      (sampleLoop c d n fuel acc dIdx att).1.length ≤ max acc.length n := by
  intro fuel
  induction fuel with
  | zero =>
    intro acc dIdx att
    exact ⟨le_refl _, le_refl _, rfl, fun p hp => Or.inl hp, le_max_left _ _⟩
  | succ fuel ih =>
    intro acc dIdx att
    rw [sampleLoop]
    by_cases h : acc.length < n
    · rw [if_pos h]
      obtain ⟨ha, hb, hc', hd, he⟩ := ih
        (addCandidates c n acc ((List.range (n * 5)).map (fun k => d (dIdx + k))))
        (dIdx + n * 5) (att + 1)
      refine ⟨by omega, le_trans (Nat.le_succ att) hb, ?_, ?_, ?_⟩
      · rw [Nat.succ_mul] at hc'
        generalize hA : att * (n * 5) = A at hc' ⊢
        generalize hB : (sampleLoop c d n fuel
          (addCandidates c n acc ((List.range (n * 5)).map (fun k => d (dIdx + k))))
          (dIdx + n * 5) (att + 1)).2.1 * (n * 5) = B at hc' ⊢
        omega
      · intro p hp
        rcases hd p hp with hmem | hc2
        · exact addCandidates_mem c n _ acc p hmem
        · exact Or.inr hc2
      · refine le_trans he (max_le ?_ (le_max_right _ _))
        exact addCandidates_length c n _ acc
    · rw [if_neg h]
      exact ⟨Nat.le_add_right _ _, le_refl _, rfl, fun p hp => Or.inl hp, le_max_left _ _⟩

theorem samplePoints_sound (c : Pt → Bool) (d : ℕ → Pt) (g : List Pt) (n : ℕ) :
    ∀ p ∈ (samplePoints c d g n).1, c p = true := by
  have hbase : ∀ q ∈ (sampleLoop c d n maxAttempts [] 0 0).1, c q = true := by
    intro q hq
    rcases (sampleLoop_spec c d n maxAttempts [] 0 0).2.2.2.1 q hq with h | h
    · cases h
    · exact h
  have hadd : ∀ q ∈ addCandidates c n (sampleLoop c d n maxAttempts [] 0 0).1 g,
      c q = true := by
    intro q hq
    rcases addCandidates_mem c n g _ q hq with h | h
    · exact hbase q h
    · exact h
  intro p hp
  simp only [samplePoints] at hp
  revert hp
  split
  · split
    · intro hp
      exact hadd p ((List.take_sublist n _).subset hp)
    · intro hp
      exact hadd p hp
  · split
    · intro hp
      exact hbase p ((List.take_sublist n _).subset hp)
    · intro hp
      exact hbase p hp

theorem samplePoints_length (c : Pt → Bool) (d : ℕ → Pt) (g : List Pt) (n : ℕ) :
    (samplePoints c d g n).1.length ≤ n := by
  simp only [samplePoints]
  split <;> split
  · rw [List.length_take]
    exact min_le_left _ _
  · next h2 => omega
  · rw [List.length_take]
    exact min_le_left _ _
  · next h2 => omega

theorem samplePoints_fallback (c : Pt → Bool) (d : ℕ → Pt) (g : List Pt) (n : ℕ)
    (hfew : (sampleLoop c d n maxAttempts [] 0 0).1.length < n) :
    (samplePoints c d g n).1 =
      addCandidates c n (sampleLoop c d n maxAttempts [] 0 0).1 g := by
  simp only [samplePoints]
  rw [if_pos hfew]
  have hlen : (addCandidates c n (sampleLoop c d n maxAttempts [] 0 0).1 g).length ≤ n :=
    le_trans (addCandidates_length c n g _) (max_le (le_of_lt hfew) (le_refl n))
  rw [if_neg (by omega)]

/-- C3: the point-sampling retry loop performs at most `max_attempts = 10`
iterations, each consuming exactly `num_points * 5` uniform candidate
draws and keeping only candidates contained in the negatively buffered
boundary; when the retries produced fewer than `num_points` interior
points the uniform grid fallback is filtered the same way; every seed
point handed to the Voronoi call apart from the 20 outer control points
lies inside the buffered boundary, and the number of such seeds never
exceeds `num_points`. -/
theorem sampling_retry_loop_spec (c : Pt → Bool) (d : ℕ → Pt) (g : List Pt) (n : ℕ) :
    (samplePoints c d g n).2.1 ≤ maxAttempts ∧
    (samplePoints c d g n).2.2 = (samplePoints c d g n).2.1 * (n * 5) ∧
    (∀ p ∈ (samplePoints c d g n).1, c p = true) ∧
    (samplePoints c d g n).1.length ≤ n ∧
    ((sampleLoop c d n maxAttempts [] 0 0).1.length < n →
      (samplePoints c d g n).1 =
        addCandidates c n (sampleLoop c d n maxAttempts [] 0 0).1 g) ∧
    (∀ (env : GisEnv) (boundary : List Geom) (nn ss : ℕ),
      voronoiSeeds env boundary nn ss =
        (samplePoints (containsOf (bufferedBoundary env boundary)) (env.streamOf ss)
          (env.gridOf nn) nn).1 ++
          controlPts env.circlePt env.corner1 env.corner2 env.corner3 env.corner4) ∧
    (∀ env : GisEnv,
      (controlPts env.circlePt env.corner1 env.corner2 env.corner3 env.corner4).length = 20) := by
  obtain ⟨ha, -, hc', -, -⟩ := sampleLoop_spec c d n maxAttempts [] 0 0
  refine ⟨ha, ?_, samplePoints_sound c d g n, samplePoints_length c d g n,
    samplePoints_fallback c d g n, fun env boundary nn ss => rfl, fun env => rfl⟩
  show (sampleLoop c d n maxAttempts [] 0 0).2.2 =
    (sampleLoop c d n maxAttempts [] 0 0).2.1 * (n * 5)
  simpa using hc'

/-- Witness for C3: on the concrete witness environment the loop stays
within the attempt bound and the sampled point lies in the buffered
boundary. -/
theorem sampling_retry_loop_spec_witness :
    (samplePoints (containsOf (bufferedBoundary envW [bW])) (envW.streamOf 0)
      (envW.gridOf 1) 1).2.1 ≤ maxAttempts ∧
    containsOf (bufferedBoundary envW [bW]) (0, 0) = true :=
  ⟨(sampling_retry_loop_spec (containsOf (bufferedBoundary envW [bW]))
      (envW.streamOf 0) (envW.gridOf 1) 1).1,
   (sampling_retry_loop_spec (containsOf (bufferedBoundary envW [bW]))
      (envW.streamOf 0) (envW.gridOf 1) 1).2.2.1 (0, 0) (by decide)⟩

/-- C9: `create_voronoi_polygons` is deterministic in `random_state`:
whatever generator state previous code left in numpy's global generator,
`np.random.seed(random_state)` overwrites it, so two calls with the same
boundary, the same `num_points` and the same `random_state` draw identical
seed points and produce identical Voronoi tables. -/
theorem create_voronoi_deterministic_in_seed (env : GisEnv) (r1 r2 : NpRng)
    (boundary : List Geom) (n seed : ℕ) :
    createVoronoiWithRng env r1 boundary n seed =
      createVoronoiWithRng env r2 boundary n seed ∧
    createVoronoiWithRng env r1 boundary n seed = mkVoronoiTable env boundary n seed := by
  constructor
  · rfl
  · unfold createVoronoiWithRng mkVoronoiTable npSeed
    have hfun : (fun k => env.streamOf seed (0 + k)) = env.streamOf seed := by
      funext k
      rw [Nat.zero_add]
    simp only [hfun]

theorem lookup_cons_ne {α : Type u} (ℓ ℓ' : ℕ) (r : α) (t : List (ℕ × α)) (h : ℓ' ≠ ℓ) :
    List.lookup ℓ' ((ℓ, r) :: t) = List.lookup ℓ' t := by
  rw [List.lookup_cons]
  have hb : (ℓ' == ℓ) = false := beq_eq_false_iff_ne.mpr h
  rw [hb]

theorem loopPath_eq_vectorPath {ρ : Type u} (wm : ρ → Option ℚ) :
    ∀ (t : List (ℕ × ρ)), (t.map Prod.fst).Nodup → ∀ θ,
      loopPath wm t θ = vectorPath wm t θ := by
  intro t
  induction t with
  | nil => intro _ θ; rfl
  | cons a t ih =>
    intro hnd θ
    obtain ⟨ℓ, r⟩ := a
    simp only [List.map_cons, List.nodup_cons] at hnd
    obtain ⟨hnotin, hnd'⟩ := hnd
    have hself : List.lookup ℓ ((ℓ, r) :: t) = some r := by
      rw [List.lookup_cons]
      simp
    have hcong1 : ∀ x ∈ t.map Prod.fst,
        (fun ℓ' => match List.lookup ℓ' ((ℓ, r) :: t) with
          | some rr => optGt (wm rr) θ
          | none => false) x =
        (fun ℓ' => match List.lookup ℓ' t with
          | some rr => optGt (wm rr) θ
          | none => false) x := by
      intro x hx
      have hxne : x ≠ ℓ := fun he => hnotin (he ▸ hx)
      simp only
      rw [lookup_cons_ne ℓ x r t hxne]
    unfold loopPath vectorPath
    simp only [List.map_cons, List.filter_cons, hself]
    rw [List.filter_congr hcong1]
    have hcong2 : ∀ x ∈ (t.map Prod.fst).filter (fun ℓ' =>
        match List.lookup ℓ' t with
        | some rr => optGt (wm rr) θ
        | none => false),
        (List.lookup x ((ℓ, r) :: t)).map (fun rr => (x, rr)) =
        (List.lookup x t).map (fun rr => (x, rr)) := by
      intro x hx
      have hxmem : x ∈ t.map Prod.fst := (List.mem_filter.mp hx).1
      have hxne : x ≠ ℓ := fun he => hnotin (he ▸ hxmem)
      rw [lookup_cons_ne ℓ x r t hxne]
    by_cases hgt : optGt (wm r) θ = true
    · rw [if_pos hgt, if_pos hgt, List.filterMap_cons]
      simp only [hself, Option.map_some']
      rw [List.filterMap_congr hcong2]
      show ((ℓ, r) :: loopPath wm t θ) = ((ℓ, r) :: vectorPath wm t θ)
      exact congrArg ((ℓ, r) :: ·) (ih hnd' θ)
    · rw [if_neg hgt, if_neg hgt]
      rw [List.filterMap_congr hcong2]
      show loopPath wm t θ = vectorPath wm t θ
      exact ih hnd' θ

theorem optGt_iff (x : Option ℚ) (θ : ℚ) : optGt x θ = true ↔ ∃ v, x = some v ∧ θ < v := by
  cases x <;> simp [optGt]

/-- C8: the per-row loop path (used when more than 100 polygons exist) and
the vectorized boolean filter of `filter_high_potential_areas` return the
same result: exactly the rows whose `wind_mean` is strictly greater than
`min_wind_speed`, in their original order; a row whose `wind_mean` equals
the threshold exactly is excluded. -/
theorem filter_paths_equivalent {ρ : Type u} (wm : ρ → Option ℚ) (t : List (ℕ × ρ))
    (θ : ℚ) (hnd : (t.map Prod.fst).Nodup) :
    loopPath wm t θ = vectorPath wm t θ ∧
    filterHigh wm t θ = vectorPath wm t θ ∧
    (filterHigh wm t θ).Sublist t ∧
    (∀ p ∈ filterHigh wm t θ, ∃ v, wm p.2 = some v ∧ θ < v) ∧
    (∀ p ∈ t, wm p.2 = some θ → ¬p ∈ filterHigh wm t θ) := by
  have h1 := loopPath_eq_vectorPath wm t hnd θ
  have h2 : filterHigh wm t θ = vectorPath wm t θ := by
    unfold filterHigh
    split
    · exact h1
    · rfl
  refine ⟨h1, h2, ?_, ?_, ?_⟩
  · rw [h2]
    exact List.filter_sublist t
  · intro p hp
    rw [h2] at hp
    exact (optGt_iff _ _).mp (List.mem_filter.mp hp).2
  · intro p _ heq hmem
    rw [h2] at hmem
    have hgt := (List.mem_filter.mp hmem).2
    rw [heq] at hgt
    simp [optGt] at hgt

/-- Witness for C8: both paths agree on the concrete three-row table. -/
theorem filter_paths_equivalent_witness :
    loopPath (fun x => x) tQ 5 = vectorPath (fun x => x) tQ 5 ∧
    filterHigh (fun x => x) tQ 5 = vectorPath (fun x => x) tQ 5 :=
  ⟨(filter_paths_equivalent (fun x => x) tQ 5 (by decide)).1,
   (filter_paths_equivalent (fun x => x) tQ 5 (by decide)).2.1⟩

/-- C10: `filter_high_potential_areas` returns a freshly allocated copy and
leaves the analyzer state untouched: the analyzer's attribute references
are unchanged, every previously allocated table is unchanged, the returned
address is fresh, and mutating the table at the returned address does not
affect the table behind `voronoi_polygons`. -/
theorem filter_high_returns_copy (store : Store) (st : RefAnalyzer) (θ : ℚ)
    (store' : Store) (st' : RefAnalyzer) (ref : ℕ)
    (hok : filterHighPotentialRef store st θ = .ok (store', st', ref)) :
    st' = st ∧ ref = store.length ∧
    (∀ i, i < store.length → store'.get? i = store.get? i) ∧
    (∀ vr, st.voronoi_polygons = some vr → ∀ tNew,
      (storeSet store' ref tNew).get? vr = store.get? vr) := by
  unfold filterHighPotentialRef at hok
  split at hok
  · cases hok
  · next r0 hv =>
    split at hok
    · cases hok
    · next rows hg =>
      simp only [Except.ok.injEq, Prod.mk.injEq] at hok
      obtain ⟨hstore, hst, href⟩ := hok
      subst hstore
      subst hst
      subst href
      have hlt : r0 < store.length := by
        by_contra hc
        rw [List.get?_eq_none.mpr (by omega)] at hg
        cases hg
      refine ⟨rfl, rfl, ?_, ?_⟩
      · intro i hi
        exact List.get?_append hi
      · intro vr hvr tNew
        rw [hv] at hvr
        injection hvr with hvr
        subst hvr
        unfold storeSet
        rw [List.get?_set_ne _ _ (by omega)]
        exact List.get?_append hlt

/-- Witness for C10: on a one-table heap, mutating the returned copy leaves
the table behind `voronoi_polygons` unchanged. -/
theorem filter_high_returns_copy_witness :
    (storeSet ([tRW] ++ [filterHigh postWm tRW 0]) 1 []).get? 0 = [tRW].get? 0 :=
  (filter_high_returns_copy [tRW] stRW 0 ([tRW] ++ [filterHigh postWm tRW 0]) stRW 1
    rfl).2.2.2 0 rfl []

/-- C4: the analyzer enforces the pipeline order.  On a fresh analyzer,
`create_voronoi_polygons` and `visualize_wind_data` raise because
`load_data` was not called; `select_region` with a name and
`list_available_regions` raise because `load_provinces` was not called;
`calculate_wind_statistics` and `save_results` raise because
`create_voronoi_polygons` was not called; and the four statistics
consumers raise because the wind statistics were not computed, also when a
voronoi table without the `wind_mean` column is present. -/
theorem pipeline_order_enforced :
    (∀ (env : GisEnv) (n s : ℕ),
      createVoronoiPolygonsM env freshAnalyzer n s = .error msgLoad) ∧
    (∀ mask : Except String String,
      visualizeWindDataM mask freshAnalyzer = .error msgLoad) ∧
    (∀ nm : String, selectRegionM freshAnalyzer (some nm) = .error msgProv) ∧
    (listAvailableRegionsM freshAnalyzer = .error msgProv) ∧
    (∀ (env : GisEnv) (w : Option String),
      calculateWindStatisticsM env freshAnalyzer w = .error msgVor) ∧
    (∀ θ : ℚ, saveResultsM freshAnalyzer θ = .error msgStats) ∧
    (∀ θ : ℚ, filterHighPotentialAreasM freshAnalyzer θ = .error msgStats) ∧
    (∀ θ : ℚ, visualizeHighPotentialAreasM freshAnalyzer θ = .error msgStats) ∧
    (∀ θ : ℚ, exportDetailedStatisticsM freshAnalyzer θ = .error msgStats) ∧
    (∀ (fig : Except String String) (θ : ℚ),
      createInteractiveVisualizationM true fig freshAnalyzer θ = .error msgStats) ∧
    (∀ (c : List Geom) (w : String) (rows : List (ℕ × GeoRow)) (θ : ℚ),
      filterHighPotentialAreasM ⟨some c, some w, some (VorTable.pre rows), none, none⟩ θ =
        .error msgStats ∧
      visualizeHighPotentialAreasM ⟨some c, some w, some (VorTable.pre rows), none, none⟩ θ =
        .error msgStats ∧
      exportDetailedStatisticsM ⟨some c, some w, some (VorTable.pre rows), none, none⟩ θ =
        .error msgStats ∧
      ∀ fig : Except String String,
        createInteractiveVisualizationM true fig
          ⟨some c, some w, some (VorTable.pre rows), none, none⟩ θ = .error msgStats) :=
  ⟨fun _ _ _ => rfl, fun _ => rfl, fun _ => rfl, rfl, fun _ _ => rfl,
   fun _ => rfl, fun _ => rfl, fun _ => rfl, fun _ => rfl, fun _ _ => rfl,
   fun _ _ _ _ => ⟨rfl, rfl, rfl, fun _ => rfl⟩⟩

/-- C5: plotting failures are non-fatal.  If the `mpld3` import fails,
`create_interactive_visualization` returns `None`; if `mpld3.fig_to_html`
raises, the exception is caught and `None` is returned; and if masking the
raster by the selected region raises inside `visualize_wind_data`, the
method falls back to displaying the unmasked raster, never propagating the
exception. -/
theorem plotting_errors_nonfatal :
    (∀ (fig : Except String String) (st : Analyzer) (θ : ℚ),
      createInteractiveVisualizationM false fig st θ = .ok (none, st)) ∧
    (∀ (st : Analyzer) (rows : List (ℕ × PostRow)) (θ : ℚ) (e : String),
      st.voronoi_polygons = some (VorTable.post rows) →
      ∃ st2, createInteractiveVisualizationM true (.error e) st θ = .ok (none, st2)) ∧
    (∀ (st : Analyzer) (e : String), ¬st.demdata = none → ¬st.catchments = none →
      visualizeWindDataM (.error e) st = .ok .fullRaster) := by
  refine ⟨fun fig st θ => rfl, ?_, ?_⟩
  · intro st rows θ e hv
    have hstep : createInteractiveVisualizationM true (.error e) st θ =
        (if (filterHigh postWm rows θ).isEmpty then .ok (none, st)
         else if ((filterHigh postWm rows θ).filter (fun p => ¬p.2.1.isNone)).isEmpty then
           .ok (none, st)
         else .ok (none,
           { st with voronoi_polygons := some (VorTable.post (rows.filter (fun p => ¬p.2.1.isNone))) })) := by
      unfold createInteractiveVisualizationM
      rw [hv]
      rfl
    rw [hstep]
    split
    · exact ⟨st, rfl⟩
    · split
      · exact ⟨st, rfl⟩
      · exact ⟨_, rfl⟩
  · intro st e hd hc
    unfold visualizeWindDataM
    rw [if_neg (not_or.mpr ⟨hd, hc⟩)]
    split
    · rfl
    · rfl

/-- Witness for C5: the three graceful-degradation behaviours on the
concrete analyzer `stPost`. -/
theorem plotting_errors_nonfatal_witness :
    createInteractiveVisualizationM false (.ok "page") stPost 0 = .ok (none, stPost) ∧
    (∃ st2, createInteractiveVisualizationM true (.error "boom") stPost 0 = .ok (none, st2)) ∧
    visualizeWindDataM (.error "mask failed") stPost = .ok .fullRaster :=
  ⟨plotting_errors_nonfatal.1 (.ok "page") stPost 0,
   plotting_errors_nonfatal.2.1 stPost tRW 0 "boom" rfl,
   plotting_errors_nonfatal.2.2 stPost "mask failed" (by simp [stPost])
     (by simp [stPost])⟩

